import Mathlib

/-!
Verification development for the QuickSurf wallet / purchase backend.

Money amounts are embedded as exact rationals (`ℚ`); Python `Decimal`
arithmetic on 2dp values is exact, and the two quantization helpers of the
source (`wallets/models.py::q`, `payments/paystack.py::kobo`) are embedded
with their exact rounding modes (`ROUND_DOWN` = toward zero,
`ROUND_HALF_UP` = nearest, ties away from zero).

The file has two parts: first the definitions embedding the source code,
then the theorems about them.
-/

namespace QuickSurf

/-! ## Part 1: definitions -/

/-! ### Quantization (`wallets/models.py::q`, `payments/paystack.py::kobo`) -/

/-- Integer truncation toward zero of a rational, the rounding of Python
`Decimal.quantize(..., rounding=ROUND_DOWN)` expressed at unit scale. -/
def truncQ (x : ℚ) : ℤ :=
  if 0 ≤ x then ⌊x⌋ else ⌈x⌉

/-- Rounding to the nearest integer with ties away from zero, the rounding of
Python `Decimal.quantize(..., rounding=ROUND_HALF_UP)` at unit scale. -/
def halfUpQ (x : ℚ) : ℤ :=
  if 0 ≤ x then ⌊x + 1/2⌋ else ⌈x - 1/2⌉

/-- Embedding of `wallets/models.py::q`: quantize any numeric input to 2dp
with `ROUND_DOWN` (toward zero). -/
def q (v : ℚ) : ℚ :=
  ((truncQ (v * 100) : ℤ) : ℚ) / 100

/-- Embedding of `payments/paystack.py::kobo`: quantize the naira amount to
2dp with `ROUND_HALF_UP`, multiply by 100 and truncate to `int` (the value is
already integral at that point). -/
def kobo (amount : ℚ) : ℤ :=
  halfUpQ (amount * 100)

/-- A rational is a 2dp decimal value, i.e. a value the `DecimalField`
columns (2 decimal places) of the database can hold. -/
def Is2dp (v : ℚ) : Prop :=
  q v = v

instance : DecidablePred Is2dp := fun v => inferInstanceAs (Decidable (q v = v))

/-! ### Wallet and ledger operations (`wallets/models.py`) -/

/-- Persisted state of a `Wallet` row: `balance` and `locked`, both 2dp
decimal columns. -/
structure Wallet where
  balance : ℚ
  locked : ℚ
  deriving DecidableEq, Repr

/-- The wallet money-safety invariant from the spec: `balance ≥ 0`,
`locked ≥ 0` and `balance ≥ locked` (equivalently `available ≥ 0`). -/
def Inv (w : Wallet) : Prop :=
  0 ≤ w.balance ∧ 0 ≤ w.locked ∧ w.locked ≤ w.balance

instance : DecidablePred Inv := fun w =>
  inferInstanceAs (Decidable (0 ≤ w.balance ∧ 0 ≤ w.locked ∧ w.locked ≤ w.balance))

/-- Both wallet columns hold 2dp decimal values, as the database schema
(`DecimalField(max_digits=12, decimal_places=2)`) enforces. -/
def W2dp (w : Wallet) : Prop :=
  Is2dp w.balance ∧ Is2dp w.locked

instance : DecidablePred W2dp := fun w =>
  inferInstanceAs (Decidable (Is2dp w.balance ∧ Is2dp w.locked))

/-- Embedding of `Wallet.available`: `q(balance) - q(locked)`, clamped to
never be negative. -/
def available (w : Wallet) : ℚ :=
  let a := q w.balance - q w.locked
  if 0 ≤ a then a else 0

/-- Embedding of `Wallet.can_spend`. -/
def can_spend (w : Wallet) (amount : ℚ) : Bool :=
  decide (q amount ≤ available w)

/-- Embedding of `Wallet.credit`: `balance += amount`, rejecting amounts
quantizing to `≤ 0`. -/
def credit (w : Wallet) (amount : ℚ) : Except String Wallet :=
  let amt := q amount
  if amt ≤ 0 then .error "Amount must be > 0"
  else .ok { w with balance := q (w.balance + amt) }

/-- Embedding of `Wallet.lock_funds`: requires `q(balance) - q(locked) ≥ amt`
and moves `amt` into `locked` without touching `balance`. -/
def lock_funds (w : Wallet) (amount : ℚ) : Except String Wallet :=
  let amt := q amount
  if amt ≤ 0 then .error "Amount must be > 0"
  else if q w.balance - q w.locked < amt then .error "INSUFFICIENT_AVAILABLE_FUNDS"
  else .ok { w with locked := q (w.locked + amt) }

/-- Embedding of `Wallet.unlock_funds`: requires `q(locked) ≥ amt` and
releases `amt` from `locked`. -/
def unlock_funds (w : Wallet) (amount : ℚ) : Except String Wallet :=
  let amt := q amount
  if amt ≤ 0 then .error "Amount must be > 0"
  else if q w.locked < amt then .error "UNLOCK_EXCEEDS_LOCKED"
  else .ok { w with locked := q (w.locked - amt) }

/-- Embedding of `Wallet.debit`: requires `q(balance) ≥ amt`; when
`use_locked_first` and `q(locked) > 0`, first reduces `locked` by
`min(q(locked), amt)`; always reduces `balance` by `amt`; clamps a negative
`locked` to zero and raises on a negative `balance`. -/
def debit (w : Wallet) (amount : ℚ) (use_locked_first : Bool := true) :
    Except String Wallet :=
  let amt := q amount
  if amt ≤ 0 then .error "Amount must be > 0"
  else if q w.balance < amt then .error "INSUFFICIENT_FUNDS"
  else
    let locked1 :=
      if use_locked_first ∧ 0 < q w.locked then q (w.locked - min (q w.locked) amt)
      else w.locked
    let balance1 := q (w.balance - amt)
    let locked2 := if locked1 < 0 then 0 else locked1
    if balance1 < 0 then .error "NEGATIVE_BALANCE_GUARD"
    else .ok { balance := balance1, locked := locked2 }

/-- One call to a `Wallet` mutation method, with its argument. -/
inductive LedgerOp
  | creditOp (a : ℚ)
  | lockOp (a : ℚ)
  | unlockOp (a : ℚ)
  | debitOp (a : ℚ) (use_locked_first : Bool)
  deriving DecidableEq, Repr

/-- Run one ledger operation; a raised error commits nothing, leaving the
wallet row unchanged (each method runs in its own atomic transaction). -/
def applyOp (w : Wallet) : LedgerOp → Wallet
  | .creditOp a => (credit w a).toOption.getD w
  | .lockOp a => (lock_funds w a).toOption.getD w
  | .unlockOp a => (unlock_funds w a).toOption.getD w
  | .debitOp a ulf => (debit w a ulf).toOption.getD w

/-- Run a sequence of ledger operations. -/
def ledgerRun (w : Wallet) (ops : List LedgerOp) : Wallet :=
  ops.foldl applyOp w

/-- An operation that uses the source defaults: `debit` is called with
`use_locked_first = true` (its default, and the only mode any caller in the
repository uses). -/
def DefaultMode : LedgerOp → Prop
  | .debitOp _ ulf => ulf = true
  | _ => True

instance : DecidablePred DefaultMode := fun op => by
  cases op <;> simp [DefaultMode] <;> infer_instance

/-! ### Provider response bodies and outcome mapping (`services/vtpass.py`,
`services/views.py`) -/

/-- A scalar JSON value at a field the mapping reads (`Python str()` of an
int is its decimal representation). Provider `code` and delivery `status`
fields are scalars. -/
inductive PyScalar
  | s (v : String)
  | i (n : Int)
  deriving DecidableEq, Repr

/-- Python `str()` of a scalar. -/
def PyScalar.toStr : PyScalar → String
  | .s v => v
  | .i n => toString n

/-- The value found at `content.transactions`: either a dict (with an
optional `status` entry) or a non-dict value, on which Python `.get` raises
`AttributeError`. -/
inductive TxNode
  | dictT (status : Option PyScalar)
  | scalarT
  deriving DecidableEq, Repr

/-- The value found at `content`: either a dict (with an optional
`transactions` entry) or a non-dict value. -/
inductive ContentNode
  | dictC (txField : Option TxNode)
  | scalarC
  deriving DecidableEq, Repr

/-- The part of a provider response body that the outcome mapping reads:
the optional top-level `code` and the optional `content` subtree. Other
keys of the body are never consulted by `strict_map_outcome`. -/
structure ProviderBody where
  code : Option PyScalar
  content : Option ContentNode
  deriving DecidableEq, Repr

/-- ASCII whitespace as stripped by Python `str.strip()`; the provider
fields compared here are ASCII. -/
def isPySpace (c : Char) : Bool :=
  c = ' ' || c = '\t' || c = '\n' || c = '\r' || c = Char.ofNat 11 || c = Char.ofNat 12

/-- Embedding of Python `str.strip()` on ASCII text. -/
def pyStrip (str : String) : String :=
  String.mk (((str.data.dropWhile isPySpace).reverse.dropWhile isPySpace).reverse)

/-- Lowercase one ASCII character as Python `str.lower()` does. -/
def pyLowerChar (c : Char) : Char :=
  if 'A' ≤ c ∧ c ≤ 'Z' then Char.ofNat (c.toNat + 32) else c

/-- Embedding of Python `str.lower()` on ASCII text. -/
def pyLower (str : String) : String :=
  String.mk (str.data.map pyLowerChar)

/-- Embedding of `services/vtpass.py::strict_map_outcome` (and of the
verbatim duplicate `services/views.py::_map_vtpass_outcome`): `successful`
when the stripped code is `"000"` and the lowercased
`content.transactions.status` is `"delivered"`; else `pending` when that
status is `"pending"` or the code is `"099"` or `"016"`; else `failed`.
A non-dict `content` or `transactions` raises inside the `try` block and
falls through to `"failed"`. -/
def strict_map_outcome (b : ProviderBody) : String :=
  let code := pyStrip (b.code.getD (.s "")).toStr
  match b.content.getD (.dictC none) with
  | .scalarC => "failed"
  | .dictC tx =>
    match tx.getD (.dictT none) with
    | .scalarT => "failed"
    | .dictT st =>
      let tx_status := pyLower (st.getD (.s "")).toStr
      if code = "000" ∧ tx_status = "delivered" then "successful"
      else if tx_status = "pending" ∨ code = "099" ∨ code = "016" then "pending"
      else "failed"

/-- Raw value of the top-level `code` field (empty string when absent), the
field the mapping rule of the spec refers to. -/
def codeField (b : ProviderBody) : String :=
  (b.code.getD (.s "")).toStr

/-- Raw value of the inner `content.transactions.status` field (empty
string when absent or when the path is not dict-shaped). -/
def deliveryStatusField (b : ProviderBody) : String :=
  match b.content.getD (.dictC none) with
  | .dictC (some (.dictT st)) => (st.getD (.s "")).toStr
  | .dictC none => ""
  | _ => ""

/-- The `content` / `content.transactions` path of the body is dict-shaped
(or absent), so reading it does not raise. -/
def wfBody (b : ProviderBody) : Bool :=
  match b.content with
  | some .scalarC => false
  | some (.dictC (some .scalarT)) => false
  | _ => true

/-- The sentinel body that `services/vtpass.py::_request` fabricates after a
connect/read timeout or connection error exhausts its retries:
`{"code": "999", "response_description": "Network error", "error": ...,
"http_status": 0}` (only the keys the mapping reads are carried). -/
def transport_sentinel : ProviderBody :=
  { code := some (.s "999"), content := none }

/-! ### Purchase orchestrator steps (`services/views.py`) and the
reconciliation sweeper (`core/management/commands/requery_pending.py`) -/

/-- The `PurchaseRequest` row as far as the money flow is concerned: its
status and amount. -/
structure PendingTxn where
  status : String
  amount : ℚ
  deriving DecidableEq, Repr

/-- Embedding of the reservation block of `AirtimePurchaseView.post` /
`DataPurchaseView.post` (`services/views.py` lines 259-285): under the
wallet lock, reject when `wallet.balance < amt`, otherwise commit
`balance -= amt; locked += amt` together with a `pending` transaction row.
The `hasattr(wallet, "locked")` branch is true for the real model. -/
def purchase_reserve (w : Wallet) (amt : ℚ) : Wallet × Option PendingTxn :=
  if w.balance < amt then (w, none)
  else ({ balance := w.balance - amt, locked := w.locked + amt },
        some { status := "pending", amount := amt })

/-- Embedding of the finalize block of the purchase views (`services/views.py`
lines 299-331): on `successful`, release the lock portion; on `pending`,
keep the reservation; otherwise mark `failed` and refund
(`locked -= amt; balance += amt`). Returns the wallet and the new status. -/
def purchase_finalize (w : Wallet) (amt : ℚ) (outcome : String) : Wallet × String :=
  if outcome = "successful" then
    ({ w with locked := w.locked - amt }, "successful")
  else if outcome = "pending" then (w, "pending")
  else ({ balance := w.balance + amt, locked := w.locked - amt }, "failed")

/-- Embedding of `PurchaseStatusView.get` (`services/views.py` lines
509-541): when the mapped outcome differs from the stored status, store the
outcome; on `failed` refund `locked -= amt; balance += amt` only when
`locked` is nonzero (Python truthiness) and at least `amt`; on `successful`
release the lock portion under the same guard. -/
def requery_reconcile (w : Wallet) (txStatus : String) (amt : ℚ)
    (outcome : String) : Wallet × String :=
  if outcome ≠ txStatus then
    if outcome = "failed" then
      (if w.locked ≠ 0 ∧ amt ≤ w.locked then
        { balance := w.balance + amt, locked := w.locked - amt }
       else w, outcome)
    else if outcome = "successful" then
      (if w.locked ≠ 0 ∧ amt ≤ w.locked then { w with locked := w.locked - amt }
       else w, outcome)
    else (w, outcome)
  else (w, txStatus)

/-- Embedding of the per-transaction body of `requery_pending.py::Command.handle`
(lines 44-57): when the mapped status differs, store it, and on a transition
to `failed` refund `balance += tx.amount` — the sweeper never touches
`locked`. -/
def sweeper_reconcile (w : Wallet) (txStatus : String) (amt : ℚ)
    (newStatus : String) : Wallet × String :=
  if newStatus ≠ txStatus then
    (if newStatus = "failed" ∧ txStatus ≠ "failed" then
      { w with balance := w.balance + amt }
     else w, newStatus)
  else (w, txStatus)

/-- The sweeper queryset filter: only `initiated`/`pending` transactions are
selected (`status__in=["initiated", "pending"]`). -/
def sweeper_selected (txStatus : String) : Bool :=
  txStatus = "initiated" || txStatus = "pending"

/-- One sweeper pass over a transaction: transactions outside the selection
filter are untouched. -/
def sweeper_step (w : Wallet) (txStatus : String) (amt : ℚ)
    (newStatus : String) : Wallet × String :=
  if sweeper_selected txStatus then sweeper_reconcile w txStatus amt newStatus
  else (w, txStatus)

/-! ### Payment intent crediting (`payments/views.py`) -/

/-- The state the payment flow mutates: the `PaymentIntent.status` of one
reference and the wallet balance of its user. -/
structure PayState where
  intentStatus : String
  balance : ℚ
  deriving DecidableEq, Repr

/-- Embedding of `payments/views.py::_credit_wallet_once`: under the intent
and wallet locks, a no-op when the intent is already `success`; otherwise
credit the wallet and mark the intent `success`. Returns whether it
credited. -/
def credit_wallet_once (st : PayState) (amt : ℚ) : PayState × Bool :=
  if st.intentStatus = "success" then (st, false)
  else ({ intentStatus := "success", balance := st.balance + amt }, true)

/-- One inbound event on a payment intent: a signature-valid
`charge.success` webhook whose data status is `success`, a signature-valid
`charge.failed` webhook, or a client `verify` poll together with the
provider response it received (`http` status, truthiness of the body
`status` flag, `data.status` text, `data.currency`). -/
inductive PayOp
  | webhookSuccess
  | webhookFailed
  | verifyPoll (httpCode : Int) (bodyOk : Bool) (statusText : Option String)
      (currency : Option String)
  deriving DecidableEq, Repr

/-- Embedding of the webhook and verify handlers of `payments/views.py`:
`charge.success` funnels into `credit_wallet_once`; `charge.failed` marks the
intent `failed`; `PaymentVerifyView.get` credits via `credit_wallet_once` on
a 200/`success`/`NGN` response, marks `failed` on `failed`/`abandoned`, and
otherwise falls through to `intent.status = "pending"`. -/
def payStep (amt : ℚ) (st : PayState) : PayOp → PayState
  | .webhookSuccess => (credit_wallet_once st amt).1
  | .webhookFailed => { st with intentStatus := "failed" }
  | .verifyPoll code ok stx cur =>
    if code = 200 ∧ ok = true ∧ stx = some "success" ∧ cur = some "NGN" then
      (credit_wallet_once st amt).1
    else if stx = some "failed" ∨ stx = some "abandoned" then
      { st with intentStatus := "failed" }
    else { st with intentStatus := "pending" }

/-- Run a sequence of webhook deliveries and verify polls. -/
def payRun (amt : ℚ) (st : PayState) (ops : List PayOp) : PayState :=
  ops.foldl (payStep amt) st

/-! ### Idempotency guard (`core/idempotency.py`) -/

/-- Embedding of `core/idempotency.py::ensure`. The state of the
`IdempotencyKey` record of one `(user, key)` pair is `Option Bool`: absent,
or present with its `success` flag. Modelled from the spec: the
`IdempotencyKey` model class itself is not under `src/` (only
`core/idempotency.py`, its caller, is); per the spec the first call
"creates a pending record", so a freshly created record carries
`success = False`. `ensure` runs `get_or_create` and raises
`DuplicateRequest` only when the record already existed and its `success`
flag is set; otherwise it returns the record. The result pairs the new
store state with either the returned record's flag or the raised error. -/
def ensure_step (st : Option Bool) : Option Bool × Except String Bool :=
  match st with
  | none => (some false, .ok false)
  | some s => (some s, if s then .error "Duplicate request" else .ok s)

/-- Embedding of `core/idempotency.py::finalize`: set `success = True` on the
matching record, if any. -/
def idem_finalize (st : Option Bool) : Option Bool :=
  match st with
  | none => none
  | some _ => some true

/-! ### Characterization predicates for the outcome mapping -/

/-- The exact condition under which the mapping yields `successful`: the
body path is readable, the stripped code is `"000"` and the lowercased
delivery status is `"delivered"`. -/
def SuccCond (b : ProviderBody) : Prop :=
  wfBody b = true ∧ pyStrip (codeField b) = "000" ∧
    pyLower (deliveryStatusField b) = "delivered"

/-- The in-progress condition of the mapping: the body path is readable and
the lowercased delivery status is `"pending"` or the stripped code is one of
the in-progress codes `"099"`, `"016"`. -/
def PendCond (b : ProviderBody) : Prop :=
  wfBody b = true ∧ (pyLower (deliveryStatusField b) = "pending" ∨
    pyStrip (codeField b) = "099" ∨ pyStrip (codeField b) = "016")

instance : DecidablePred SuccCond := fun b =>
  inferInstanceAs (Decidable (wfBody b = true ∧ pyStrip (codeField b) = "000" ∧
    pyLower (deliveryStatusField b) = "delivered"))

instance : DecidablePred PendCond := fun b =>
  inferInstanceAs (Decidable (wfBody b = true ∧
    (pyLower (deliveryStatusField b) = "pending" ∨
      pyStrip (codeField b) = "099" ∨ pyStrip (codeField b) = "016")))

/-! ## Part 2: theorems -/

/-! ### Quantization lemmas -/

theorem truncQ_intCast (n : ℤ) : truncQ (n : ℚ) = n := by
  unfold truncQ
  split <;> simp

theorem q_div_100 (n : ℤ) : q ((n : ℚ) / 100) = (n : ℚ) / 100 := by
  unfold q
  have h : ((n : ℚ) / 100) * 100 = (n : ℚ) := by
    field_simp
  rw [h, truncQ_intCast]

theorem is2dp_div_100 (n : ℤ) : Is2dp ((n : ℚ) / 100) :=
  q_div_100 n

theorem is2dp_rep {v : ℚ} (h : Is2dp v) : ∃ n : ℤ, v = (n : ℚ) / 100 :=
  ⟨truncQ (v * 100), h.symm⟩

theorem is2dp_add {a b : ℚ} (ha : Is2dp a) (hb : Is2dp b) : Is2dp (a + b) := by
  obtain ⟨m, hm⟩ := is2dp_rep ha
  obtain ⟨n, hn⟩ := is2dp_rep hb
  have h : a + b = ((m + n : ℤ) : ℚ) / 100 := by
    rw [hm, hn]; push_cast; ring
  rw [h]; exact is2dp_div_100 _

theorem is2dp_sub {a b : ℚ} (ha : Is2dp a) (hb : Is2dp b) : Is2dp (a - b) := by
  obtain ⟨m, hm⟩ := is2dp_rep ha
  obtain ⟨n, hn⟩ := is2dp_rep hb
  have h : a - b = ((m - n : ℤ) : ℚ) / 100 := by
    rw [hm, hn]; push_cast; ring
  rw [h]; exact is2dp_div_100 _

theorem is2dp_q (v : ℚ) : Is2dp (q v) := by
  unfold q
  exact is2dp_div_100 _

theorem is2dp_min {a b : ℚ} (ha : Is2dp a) (hb : Is2dp b) : Is2dp (min a b) := by
  rcases le_total a b with h | h
  · rw [min_eq_left h]; exact ha
  · rw [min_eq_right h]; exact hb

theorem truncQ_le {x : ℚ} (h : 0 ≤ x) : ((truncQ x : ℤ) : ℚ) ≤ x := by
  unfold truncQ
  rw [if_pos h]
  exact Int.floor_le x

theorem le_truncQ {x : ℚ} (h : x ≤ 0) : x ≤ ((truncQ x : ℤ) : ℚ) := by
  unfold truncQ
  split
  · have hx : x = 0 := le_antisymm h (by assumption)
    simp [hx]
  · exact Int.le_ceil x

theorem truncQ_nonneg {x : ℚ} (h : 0 ≤ x) : 0 ≤ truncQ x := by
  unfold truncQ
  rw [if_pos h]
  exact Int.floor_nonneg.mpr h

theorem truncQ_nonpos {x : ℚ} (h : x ≤ 0) : truncQ x ≤ 0 := by
  unfold truncQ
  split
  · have hx : x = 0 := le_antisymm h (by assumption)
    simp [hx, truncQ]
  · exact Int.ceil_le.mpr (by exact_mod_cast h)

theorem abs_truncQ_le (x : ℚ) : |((truncQ x : ℤ) : ℚ)| ≤ |x| := by
  rcases le_total 0 x with h | h
  · rw [abs_of_nonneg h, abs_of_nonneg (by exact_mod_cast truncQ_nonneg h)]
    exact truncQ_le h
  · rw [abs_of_nonpos h, abs_of_nonpos (by exact_mod_cast truncQ_nonpos h)]
    exact neg_le_neg (le_truncQ h)

/-- The ROUND_DOWN quantization never increases magnitude (rounds toward
zero). -/
theorem abs_q_le (v : ℚ) : |q v| ≤ |v| := by
  unfold q
  rw [abs_div]
  have h := abs_truncQ_le (v * 100)
  rw [abs_mul] at h
  have h100 : |(100 : ℚ)| = 100 := by norm_num
  rw [h100] at h
  calc |((truncQ (v * 100) : ℤ) : ℚ)| / |(100 : ℚ)|
      = |((truncQ (v * 100) : ℤ) : ℚ)| / 100 := by rw [h100]
    _ ≤ (|v| * 100) / 100 := by
        apply div_le_div_of_nonneg_right h (by norm_num) |>.trans_eq rfl
    _ = |v| := by field_simp

theorem q_le_self {v : ℚ} (h : 0 ≤ v) : q v ≤ v := by
  unfold q
  have h1 : ((truncQ (v * 100) : ℤ) : ℚ) ≤ v * 100 :=
    truncQ_le (by positivity)
  linarith

theorem self_le_q {v : ℚ} (h : v ≤ 0) : v ≤ q v := by
  unfold q
  have h1 : v * 100 ≤ ((truncQ (v * 100) : ℤ) : ℚ) :=
    le_truncQ (by nlinarith)
  linarith

theorem q_nonneg {v : ℚ} (h : 0 ≤ v) : 0 ≤ q v := by
  unfold q
  have := truncQ_nonneg (x := v * 100) (by positivity)
  positivity

/-- The HALF_UP rounding lands within half a unit of the exact value. -/
theorem abs_halfUpQ_sub_le (x : ℚ) : |((halfUpQ x : ℤ) : ℚ) - x| ≤ 1/2 := by
  unfold halfUpQ
  split
  · rw [abs_le]
    constructor
    · have := Int.lt_floor_add_one (x + 1/2)
      linarith
    · have := Int.floor_le (x + 1/2)
      linarith
  · rw [abs_le]
    constructor
    · have := Int.le_ceil (x - 1/2)
      linarith
    · have := Int.ceil_lt_add_one (x - 1/2)
      linarith

/-- The kobo conversion is within half a kobo of the exact minor-unit
amount. -/
theorem abs_kobo_sub_le (v : ℚ) : |((kobo v : ℤ) : ℚ) - v * 100| ≤ 1/2 :=
  abs_halfUpQ_sub_le (v * 100)

/-! ### Ledger preservation lemmas -/

theorem applyOp_preserves {w : Wallet} (op : LedgerOp) (h2 : W2dp w)
    (hinv : Inv w) (hd : DefaultMode op) :
    Inv (applyOp w op) ∧ W2dp (applyOp w op) := by
  obtain ⟨hb2, hl2⟩ := h2
  obtain ⟨hb0, hl0, hlb⟩ := hinv
  have hbq : q w.balance = w.balance := hb2
  have hlq : q w.locked = w.locked := hl2
  cases op with
  | creditOp a =>
    by_cases h : q a ≤ 0
    · simp only [applyOp, credit, if_pos h, Except.toOption, Option.getD]
      exact ⟨⟨hb0, hl0, hlb⟩, hb2, hl2⟩
    · push_neg at h
      have hsum : q (w.balance + q a) = w.balance + q a :=
        is2dp_add hb2 (is2dp_q a)
      simp only [applyOp, credit, if_neg (not_le.mpr h), Except.toOption,
        Option.getD]
      refine ⟨⟨?_, hl0, ?_⟩, ?_, hl2⟩
      · show (0 : ℚ) ≤ q (w.balance + q a)
        rw [hsum]; linarith
      · show w.locked ≤ q (w.balance + q a)
        rw [hsum]; linarith
      · exact is2dp_q _
  | lockOp a =>
    by_cases h : q a ≤ 0
    · simp only [applyOp, lock_funds, if_pos h, Except.toOption, Option.getD]
      exact ⟨⟨hb0, hl0, hlb⟩, hb2, hl2⟩
    · push_neg at h
      by_cases hins : q w.balance - q w.locked < q a
      · simp only [applyOp, lock_funds, if_neg (not_le.mpr h), if_pos hins,
          Except.toOption, Option.getD]
        exact ⟨⟨hb0, hl0, hlb⟩, hb2, hl2⟩
      · have hins2 : q a ≤ w.balance - w.locked := by
          have hx := not_lt.mp hins
          rw [hbq, hlq] at hx
          linarith
        have hsum : q (w.locked + q a) = w.locked + q a :=
          is2dp_add hl2 (is2dp_q a)
        simp only [applyOp, lock_funds, if_neg (not_le.mpr h), if_neg hins,
          Except.toOption, Option.getD]
        refine ⟨⟨hb0, ?_, ?_⟩, hb2, ?_⟩
        · show (0 : ℚ) ≤ q (w.locked + q a)
          rw [hsum]; linarith
        · show q (w.locked + q a) ≤ w.balance
          rw [hsum]; linarith
        · exact is2dp_q _
  | unlockOp a =>
    by_cases h : q a ≤ 0
    · simp only [applyOp, unlock_funds, if_pos h, Except.toOption, Option.getD]
      exact ⟨⟨hb0, hl0, hlb⟩, hb2, hl2⟩
    · push_neg at h
      by_cases hins : q w.locked < q a
      · simp only [applyOp, unlock_funds, if_neg (not_le.mpr h), if_pos hins,
          Except.toOption, Option.getD]
        exact ⟨⟨hb0, hl0, hlb⟩, hb2, hl2⟩
      · have hins2 : q a ≤ w.locked := by
          have hx := not_lt.mp hins
          rw [hlq] at hx
          linarith
        have hsub : q (w.locked - q a) = w.locked - q a :=
          is2dp_sub hl2 (is2dp_q a)
        simp only [applyOp, unlock_funds, if_neg (not_le.mpr h), if_neg hins,
          Except.toOption, Option.getD]
        refine ⟨⟨hb0, ?_, ?_⟩, hb2, ?_⟩
        · show (0 : ℚ) ≤ q (w.locked - q a)
          rw [hsub]; linarith
        · show q (w.locked - q a) ≤ w.balance
          rw [hsub]; linarith
        · exact is2dp_q _
  | debitOp a ulf =>
    have hulf : ulf = true := hd
    subst hulf
    by_cases h : q a ≤ 0
    · simp only [applyOp, debit, if_pos h, Except.toOption, Option.getD]
      exact ⟨⟨hb0, hl0, hlb⟩, hb2, hl2⟩
    · push_neg at h
      by_cases hins : q w.balance < q a
      · simp only [applyOp, debit, if_neg (not_le.mpr h), if_pos hins,
          Except.toOption, Option.getD]
        exact ⟨⟨hb0, hl0, hlb⟩, hb2, hl2⟩
      · have hins2 : q a ≤ w.balance := by
          have hx := not_lt.mp hins
          rw [hbq] at hx
          linarith
        have hbal : q (w.balance - q a) = w.balance - q a :=
          is2dp_sub hb2 (is2dp_q a)
        have hbal0 : ¬ q (w.balance - q a) < 0 := by
          rw [hbal]; linarith
        have hc1 : (q a ≤ 0) = False := eq_false (not_le.mpr h)
        have hc2 : (q w.balance < q a) = False := eq_false hins
        have hc5 : (q (w.balance - q a) < 0) = False := eq_false hbal0
        by_cases hlpos : 0 < q w.locked
        · have hmin : min (q w.locked) (q a) ≤ w.locked :=
            (min_le_left (q w.locked) (q a)).trans (le_of_eq hlq)
          have hl1 : q (w.locked - min (q w.locked) (q a)) =
              w.locked - min (q w.locked) (q a) :=
            is2dp_sub hl2 (is2dp_min (is2dp_q _) (is2dp_q _))
          have hl1nn : ¬ q (w.locked - min (q w.locked) (q a)) < 0 := by
            rw [hl1]; linarith
          have hc3 : (0 < q w.locked) = True := eq_true hlpos
          have hc4 : (q (w.locked - min (q w.locked) (q a)) < 0) = False :=
            eq_false hl1nn
          simp only [applyOp, debit, hc1, hc2, hc3, hc4, hc5,
            eq_self_iff_true, true_and, and_true, and_self, if_true, if_false,
            Except.toOption, Option.getD]
          refine ⟨⟨?_, ?_, ?_⟩, ?_, ?_⟩
          · show (0 : ℚ) ≤ q (w.balance - q a)
            rw [hbal]; linarith
          · show (0 : ℚ) ≤ q (w.locked - min (q w.locked) (q a))
            rw [hl1]; linarith
          · show q (w.locked - min (q w.locked) (q a)) ≤ q (w.balance - q a)
            rw [hl1, hbal]
            rcases le_total (q w.locked) (q a) with hcm | hcm
            · rw [min_eq_left hcm, hlq]
              linarith
            · rw [min_eq_right hcm]
              linarith
          · exact is2dp_q _
          · exact is2dp_q _
        · have hl00 : ¬ w.locked < 0 := not_lt.mpr hl0
          have hlle : w.locked ≤ 0 := hlq ▸ not_lt.mp hlpos
          have hc3 : (0 < q w.locked) = False := eq_false hlpos
          have hc4 : (w.locked < 0) = False := eq_false hl00
          simp only [applyOp, debit, hc1, hc2, hc3, hc4, hc5,
            eq_self_iff_true, true_and, and_true, and_false, if_true, if_false,
            Except.toOption, Option.getD]
          refine ⟨⟨?_, hl0, ?_⟩, ?_, hl2⟩
          · show (0 : ℚ) ≤ q (w.balance - q a)
            rw [hbal]; linarith
          · show w.locked ≤ q (w.balance - q a)
            rw [hbal]; linarith
          · exact is2dp_q _

/-- Any sequence of ledger mutation calls (with `debit` in its default
`use_locked_first` mode) preserves the wallet invariant and 2dp-ness. -/
theorem ledgerRun_preserves (ops : List LedgerOp) {w : Wallet} (h2 : W2dp w)
    (hinv : Inv w) (hall : ∀ op ∈ ops, DefaultMode op) :
    Inv (ledgerRun w ops) ∧ W2dp (ledgerRun w ops) := by
  induction ops generalizing w with
  | nil => exact ⟨hinv, h2⟩
  | cons op rest ih =>
    have hstep := applyOp_preserves op ⟨h2.1, h2.2⟩ hinv (hall op (by simp))
    have hrest := ih hstep.2 hstep.1 (fun o ho => hall o (by simp [ho]))
    simpa [ledgerRun] using hrest

/-! ### Claim C1 -/

/-- C1 counterexample: the purchase reservation commits
`balance -= amount; locked += amount` in one step, so from the valid state
`balance = 1000, locked = 0` a reservation of 600 persists
`balance = 400, locked = 600`, which violates `balance ≥ locked`. The
claimed invariant does not survive the orchestrator's reservation. -/
theorem c1_counterexample :
    Inv ⟨1000, 0⟩ ∧
    purchase_reserve ⟨1000, 0⟩ 600 = (⟨400, 600⟩, some ⟨"pending", 600⟩) ∧
    ¬ Inv ⟨400, 600⟩ := by
  refine ⟨⟨by norm_num, by norm_num, by norm_num⟩, ?_, ?_⟩
  · norm_num [purchase_reserve]
  · intro h
    have := h.2.2
    norm_num at this

/-- C1 (amended): the `Wallet` ledger operations (`credit`, `lock_funds`,
`unlock_funds`, and `debit` in its default `use_locked_first` mode), in any
sequence and from any 2dp state satisfying the invariant, never commit a
state violating `balance ≥ 0 ∧ locked ≥ 0 ∧ balance ≥ locked`; the
orchestrator's purchase reservation, however, can (see the
counterexample). -/
theorem c1_ledger_invariant (ops : List LedgerOp) (w : Wallet) (h2 : W2dp w)
    (hinv : Inv w) (hall : ∀ op ∈ ops, DefaultMode op) :
    Inv (ledgerRun w ops) :=
  (ledgerRun_preserves ops h2 hinv hall).1

/-- Witness for the amended C1 at a concrete state and operation list. -/
theorem c1_ledger_invariant_witness :
    Inv (ledgerRun ⟨10, 0⟩
      [.creditOp 5, .lockOp 3, .debitOp 2 true, .unlockOp 1]) :=
  c1_ledger_invariant _ ⟨10, 0⟩
    (by constructor <;> norm_num [Is2dp, q, truncQ])
    (by refine ⟨by norm_num, by norm_num, by norm_num⟩)
    (by intro op hop; fin_cases hop <;> simp [DefaultMode])

/-! ### Claim C8 -/

/-- C8 counterexample: the reservation verifies `balance ≥ amount`, not
`available ≥ amount`. With `balance = 100, locked = 50` the available
balance is 50, yet a purchase of 80 is accepted and committed
(`balance = 20, locked = 130`) instead of being rejected with the wallet
unchanged and no row created. -/
theorem c8_counterexample :
    available ⟨100, 50⟩ < 80 ∧
    purchase_reserve ⟨100, 50⟩ 80 = (⟨20, 130⟩, some ⟨"pending", 80⟩) := by
  constructor
  · norm_num [available, q, truncQ]
  · norm_num [purchase_reserve]

/-- C8 (amended): the reservation checks `balance < amount` under the wallet
lock: when `balance < amount` it rejects with an insufficient-funds error,
leaves the wallet unchanged and creates no PurchaseRequest row; when
`amount ≤ balance` it reserves — even when a nonzero `locked` makes
`available < amount ≤ balance`. -/
theorem c8_reservation (w : Wallet) (amt : ℚ) :
    (w.balance < amt → purchase_reserve w amt = (w, none)) ∧
    (amt ≤ w.balance →
      purchase_reserve w amt =
        ({ balance := w.balance - amt, locked := w.locked + amt },
         some { status := "pending", amount := amt })) := by
  constructor
  · intro h
    simp [purchase_reserve, h]
  · intro h
    simp [purchase_reserve, not_lt.mpr h]

/-- Witness for the amended C8: a rejection (balance 50 < amount 80) and an
acceptance (amount 80 ≤ balance 100 with locked 50). -/
theorem c8_reservation_witness :
    purchase_reserve ⟨50, 0⟩ 80 = (⟨50, 0⟩, none) ∧
    purchase_reserve ⟨100, 50⟩ 80 =
      ({ balance := (100 : ℚ) - 80, locked := (50 : ℚ) + 80 },
       some { status := "pending", amount := 80 }) :=
  ⟨(c8_reservation ⟨50, 0⟩ 80).1 (by norm_num),
   (c8_reservation ⟨100, 50⟩ 80).2 (by norm_num)⟩

/-! ### Claim C2 -/

/-- C2 counterexample: a connect/read timeout or connection error makes
`_request` return the code-`"999"` sentinel body, which the outcome mapping
classifies as `"failed"`; the finalize block then marks the purchase failed
and refunds, instead of leaving it `pending` with funds reserved. Starting
from the reserved state `balance = 500, locked = 500` (amount 500), the
transport failure commits `balance = 1000, locked = 0` and status
`"failed"`. -/
theorem c2_counterexample :
    strict_map_outcome transport_sentinel = "failed" ∧
    purchase_finalize ⟨500, 500⟩ 500 (strict_map_outcome transport_sentinel) =
      (⟨1000, 0⟩, "failed") ∧
    ("failed" : String) ≠ "pending" := by
  have h : strict_map_outcome transport_sentinel = "failed" := by decide
  refine ⟨h, ?_, by decide⟩
  rw [h]
  simp only [purchase_finalize,
    if_neg (show ¬ ("failed" : String) = "successful" by decide),
    if_neg (show ¬ ("failed" : String) = "pending" by decide)]
  norm_num

/-- C2 (amended): for every wallet state and amount, a transport-level
failure is mapped to the `"failed"` outcome (the sentinel body is not
special-cased), so the orchestrator finalize marks the purchase `"failed"`
and refunds the reservation rather than leaving it `pending`. -/
theorem c2_transport_failure (w : Wallet) (amt : ℚ) :
    strict_map_outcome transport_sentinel = "failed" ∧
    purchase_finalize w amt (strict_map_outcome transport_sentinel) =
      ({ balance := w.balance + amt, locked := w.locked - amt }, "failed") := by
  have h : strict_map_outcome transport_sentinel = "failed" := by decide
  refine ⟨h, ?_⟩
  rw [h]
  simp only [purchase_finalize,
    if_neg (show ¬ ("failed" : String) = "successful" by decide),
    if_neg (show ¬ ("failed" : String) = "pending" by decide)]

/-- Witness for the amended C2 at the reserved state `balance 500, locked
500`, amount 500. -/
theorem c2_transport_failure_witness :
    strict_map_outcome transport_sentinel = "failed" ∧
    purchase_finalize ⟨500, 500⟩ 500 (strict_map_outcome transport_sentinel) =
      ({ balance := (500 : ℚ) + 500, locked := (500 : ℚ) - 500 }, "failed") :=
  c2_transport_failure ⟨500, 500⟩ 500

/-! ### Claim C3 -/

/-- C3 counterexample: `PurchaseStatusView.get` applies any provider outcome
that differs from the stored status, with no terminal-state guard. A
purchase already `"successful"` (amount 300) whose requery maps to
`"failed"` is flipped to `"failed"`, and with `locked = 300` the view also
refunds the wallet (`balance 500 → 800, locked 300 → 0`): the record is not
immutable after success. -/
theorem c3_counterexample :
    requery_reconcile ⟨500, 300⟩ "successful" 300 "failed" =
      (⟨800, 0⟩, "failed") ∧
    ("failed" : String) ≠ "successful" := by
  constructor
  · simp only [requery_reconcile,
      if_pos (show ("failed" : String) ≠ "successful" by decide),
      if_pos (show ("failed" : String) = "failed" from rfl)]
    rw [if_pos (show (300 : ℚ) ≠ 0 ∧ (300 : ℚ) ≤ 300 by norm_num)]
    norm_num
  · decide

/-- C3 (amended): `"successful"` is terminal for the reconciliation sweeper
— its queryset only selects `initiated`/`pending` rows, so a successful
purchase is never re-processed there — but the user-facing requery view can
still mutate a successful purchase whenever the provider outcome differs. -/
theorem c3_sweeper_terminal (w : Wallet) (amt : ℚ) (outcome : String) :
    sweeper_step w "successful" amt outcome = (w, "successful") := by
  simp only [sweeper_step,
    if_neg (show ¬ sweeper_selected "successful" = true by decide)]

/-- Witness for the amended C3: a successful purchase of 50 is untouched by
a sweeper pass even when the provider would now report `failed`. -/
theorem c3_sweeper_terminal_witness :
    sweeper_step ⟨100, 0⟩ "successful" 50 "failed" = (⟨100, 0⟩, "successful") :=
  c3_sweeper_terminal ⟨100, 0⟩ 50 "failed"

/-! ### Claim C4 -/

/-- C4: the sweeper's refund is not the finalize code path and does not
restore `available`. After reserving 500 from `balance = 1000, locked = 0`
(state `500, 500`), the orchestrator finalize on `"failed"` restores
`⟨1000, 0⟩` (available 1000, exact reversal), but the sweeper's
`balance += amount` refund yields `⟨1000, 500⟩`, whose available balance is
500, not the original 1000: `locked` drifts by the purchase amount. -/
theorem c4_sweeper_drift :
    purchase_reserve ⟨1000, 0⟩ 500 = (⟨500, 500⟩, some ⟨"pending", 500⟩) ∧
    purchase_finalize ⟨500, 500⟩ 500 "failed" = (⟨1000, 0⟩, "failed") ∧
    sweeper_step ⟨500, 500⟩ "pending" 500 "failed" = (⟨1000, 500⟩, "failed") ∧
    available ⟨1000, 0⟩ = 1000 ∧
    available ⟨1000, 500⟩ = 500 ∧
    (500 : ℚ) ≠ 1000 := by
  refine ⟨?_, ?_, ?_, ?_, ?_, by norm_num⟩
  · norm_num [purchase_reserve]
  · simp only [purchase_finalize,
      if_neg (show ¬ ("failed" : String) = "successful" by decide),
      if_neg (show ¬ ("failed" : String) = "pending" by decide)]
    norm_num
  · simp only [sweeper_step,
      if_pos (show sweeper_selected "pending" = true by decide),
      sweeper_reconcile,
      if_pos (show ("failed" : String) ≠ "pending" by decide),
      if_pos (show ("failed" : String) = "failed" ∧
        ("pending" : String) ≠ "failed" by decide)]
    norm_num
    decide
  · norm_num [available, q, truncQ]
  · norm_num [available, q, truncQ]

/-! ### Claim C5 -/

/-- C5 counterexample: the mapping lowercases the delivery-status field
before comparing, so a body with code `"000"` and status `"DELIVERED"` maps
to `"successful"` although the raw field does not equal `"delivered"` (the
claim, read on the raw fields, would make this body `failed`). -/
theorem c5_counterexample :
    strict_map_outcome
      ⟨some (.s "000"),
       some (.dictC (some (.dictT (some (.s "DELIVERED")))))⟩ = "successful" ∧
    deliveryStatusField
      ⟨some (.s "000"),
       some (.dictC (some (.dictT (some (.s "DELIVERED")))))⟩ ≠ "delivered" := by
  constructor
  · decide
  · decide

/-- C5 (amended): `successful` iff the body path is readable (dict-shaped
`content`/`transactions` where present), the whitespace-stripped code equals
`"000"` and the lowercased delivery status equals `"delivered"`; `pending`
iff not successful, the path is readable, and the lowercased status is
`"pending"` or the stripped code is `"099"` or `"016"`; `failed` in every
other case (including a present but non-dict `content` or `transactions`,
which short-circuits to `failed` even when the code is in the in-progress
set). -/
theorem c5_outcome_mapping (b : ProviderBody) :
    (strict_map_outcome b = "successful" ↔ SuccCond b) ∧
    (strict_map_outcome b = "pending" ↔ ¬ SuccCond b ∧ PendCond b) ∧
    (strict_map_outcome b = "failed" ↔ ¬ SuccCond b ∧ ¬ PendCond b) := by
  obtain ⟨cf, ct⟩ := b
  cases ct with
  | none =>
    simp only [strict_map_outcome, SuccCond, PendCond, wfBody, codeField,
      deliveryStatusField, Option.getD, PyScalar.toStr,
      show pyLower "" = "" by decide]
    split_ifs with h1 h2 <;> simp_all
  | some c =>
    cases c with
    | scalarC =>
      simp only [strict_map_outcome, SuccCond, PendCond, wfBody, codeField,
        deliveryStatusField, Option.getD]
      simp
    | dictC tx =>
      cases tx with
      | none =>
        simp only [strict_map_outcome, SuccCond, PendCond, wfBody, codeField,
          deliveryStatusField, Option.getD, PyScalar.toStr,
          show pyLower "" = "" by decide]
        split_ifs with h1 h2 <;> simp_all
      | some t =>
        cases t with
        | scalarT =>
          simp only [strict_map_outcome, SuccCond, PendCond, wfBody, codeField,
            deliveryStatusField, Option.getD]
          simp
        | dictT st =>
          simp only [strict_map_outcome, SuccCond, PendCond, wfBody, codeField,
            deliveryStatusField, Option.getD]
          split_ifs with h1 h2 <;> simp_all

/-- Witness for the amended C5: a body whose code needs stripping and whose
status needs lowercasing still maps to `successful`. -/
theorem c5_outcome_mapping_witness :
    strict_map_outcome
      ⟨some (.s " 000 "),
       some (.dictC (some (.dictT (some (.s "Delivered")))))⟩ = "successful" :=
  (c5_outcome_mapping
    ⟨some (.s " 000 "),
     some (.dictC (some (.dictT (some (.s "Delivered")))))⟩).1.mpr (by decide)

/-! ### Claim C6 -/

/-- C6: the at-most-once credit guard can be re-armed. A first valid
`charge.success` webhook credits once (`⟨"success", 100⟩`); a verify poll
whose provider response is not a success (HTTP 500 here) falls through to
`intent.status = "pending"`, un-marking the success; a second valid webhook
then credits again, leaving the balance increased by twice the intent
amount. The two webhook-only deliveries alone credit exactly once. -/
theorem c6_double_credit :
    payRun 100 ⟨"pending", 0⟩ [.webhookSuccess, .webhookSuccess] =
      ⟨"success", 100⟩ ∧
    payRun 100 ⟨"pending", 0⟩
      [.webhookSuccess, .verifyPoll 500 false none none, .webhookSuccess] =
      ⟨"success", 200⟩ ∧
    (200 : ℚ) ≠ 100 := by
  refine ⟨?_, ?_, by norm_num⟩
  · simp only [payRun, List.foldl, payStep, credit_wallet_once,
      if_neg (show ¬ ("pending" : String) = "success" by decide),
      if_pos (show ("success" : String) = "success" from rfl)]
    norm_num
  · simp only [payRun, List.foldl, payStep, credit_wallet_once,
      if_neg (show ¬ ("pending" : String) = "success" by decide)]
    rw [if_neg (show ¬ ((500 : ℤ) = 200 ∧ false = true ∧
      (none : Option String) = some "success" ∧
      (none : Option String) = some "NGN") by simp)]
    rw [if_neg (show ¬ ((none : Option String) = some "failed" ∨
      (none : Option String) = some "abandoned") by simp)]
    simp only [credit_wallet_once,
      if_neg (show ¬ ("pending" : String) = "success" by decide)]
    norm_num

/-! ### Claim C7 -/

/-- C7 counterexample: after the first `ensure` call creates the pending
record (`success = False`), a second call with the same key does not raise
`DuplicateRequest` — `get_or_create` finds the record, `obj.success` is
falsy, and the record is returned. The claim that a call while the record
is still pending raises is false. -/
theorem c7_counterexample :
    (ensure_step ((ensure_step none).1)).2 = Except.ok false ∧
    (Except.ok false : Except String Bool) ≠ Except.error "Duplicate request" := by
  constructor
  · rfl
  · simp

/-- C7 (amended): the first `ensure` call for a key creates the pending
record and returns it; a repeat call while the record is pending returns the
existing record without raising; only after `finalize` has marked the record
successful does a repeat call raise `DuplicateRequest`. -/
theorem c7_idempotency_guard :
    ensure_step none = (some false, Except.ok false) ∧
    ensure_step (some false) = (some false, Except.ok false) ∧
    ensure_step (some true) = (some true, Except.error "Duplicate request") ∧
    idem_finalize (some false) = some true ∧
    idem_finalize ((ensure_step none).1) = some true := by
  refine ⟨rfl, ?_, ?_, rfl, rfl⟩
  · simp [ensure_step]
  · simp [ensure_step]

/-! ### Claim C9 -/

/-- C9 counterexample: the naira-to-kobo conversion uses `ROUND_HALF_UP`,
not truncation: `kobo(1.005) = 101`, strictly above the exact minor-unit
value 100.5 — it rounds up, while truncation toward zero would give 100. -/
theorem c9_counterexample :
    kobo (201/200) = 101 ∧ ((201 : ℚ)/200) * 100 < ((101 : ℤ) : ℚ) ∧
    truncQ (((201 : ℚ)/200) * 100) = 100 := by
  refine ⟨?_, by norm_num, ?_⟩
  · norm_num [kobo, halfUpQ]
  · norm_num [truncQ]

/-- C9 (amended): the wallet quantization `q` (ROUND_DOWN) rounds toward
zero for every input — it never increases magnitude, never exceeds a
nonnegative input and never goes below a nonpositive one — while the
`kobo` conversion (ROUND_HALF_UP) rounds to the nearest kobo with ties away
from zero, within half a kobo of the exact value, and can round up. -/
theorem c9_rounding (v : ℚ) :
    |q v| ≤ |v| ∧ (0 ≤ v → q v ≤ v) ∧ (v ≤ 0 → v ≤ q v) ∧
    |((kobo v : ℤ) : ℚ) - v * 100| ≤ 1/2 :=
  ⟨abs_q_le v, fun h => q_le_self h, fun h => self_le_q h, abs_kobo_sub_le v⟩

/-- Witness for the amended C9 at `v = 0.019`. -/
theorem c9_rounding_witness :
    |q (19/1000)| ≤ |(19 : ℚ)/1000| ∧ q (19/1000) ≤ 19/1000 ∧
    |((kobo (19/1000) : ℤ) : ℚ) - (19/1000) * 100| ≤ 1/2 :=
  ⟨(c9_rounding (19/1000)).1,
   (c9_rounding (19/1000)).2.1 (by norm_num),
   (c9_rounding (19/1000)).2.2.2⟩

/-! ### Claim C10 -/

/-- C10: the public `available` accessor is clamped at zero: it returns
`max(0, balance - locked)` on every 2dp wallet state — including states
with `locked > balance` — and is never negative, so `available` and
`can_spend` never observe a negative spendable amount. -/
theorem c10_available_clamped (w : Wallet) :
    0 ≤ available w ∧
    (W2dp w → available w = max 0 (w.balance - w.locked)) := by
  have hdef : available w =
      if 0 ≤ q w.balance - q w.locked then q w.balance - q w.locked else 0 := rfl
  constructor
  · rw [hdef]
    split_ifs with h
    · exact h
    · exact le_refl 0
  · intro h
    obtain ⟨hb, hl⟩ := h
    rw [hdef]
    rw [show q w.balance = w.balance from hb, show q w.locked = w.locked from hl]
    rcases le_total 0 (w.balance - w.locked) with hc | hc
    · rw [if_pos hc, max_eq_right hc]
    · rcases lt_or_eq_of_le hc with hc2 | hc2
      · rw [if_neg (not_le.mpr hc2), max_eq_left hc]
      · rw [hc2]
        simp

/-- Witness for C10 on the state `balance = 5, locked = 10`, where the
unclamped difference would be negative. -/
theorem c10_available_clamped_witness :
    0 ≤ available ⟨5, 10⟩ ∧ available ⟨5, 10⟩ = max 0 ((5 : ℚ) - 10) :=
  ⟨(c10_available_clamped ⟨5, 10⟩).1,
   (c10_available_clamped ⟨5, 10⟩).2
     (by constructor <;> norm_num [Is2dp, q, truncQ])⟩

end QuickSurf
